import Mathlib

/-!
# AceReactorEcho: port selection, connection handler and listener handler

A shallow embedding of `src/main.cpp`:

* `main` chooses the listening port from the command line (`main_PORT`);
* `ClientSocket::handle_input` reads up to 256 bytes with a zero wait and echoes them;
* `ServerSocket::handle_input` accepts one connection and registers a `ClientSocket`.

The transport (`recv_n`, `send_n`, `accept`) and the reactor are ACE library code.  Their
results enter the handlers as arguments, and the calls a handler makes are recorded as a
list of `Op`s, in program order.
-/

namespace AceReactorEcho

/-! ## Command line: `atoi` and the port selected by `main` -/

/-- Smallest value of a 32-bit `int`. -/
def INT_MIN : Int := -2147483648

/-- Largest value of a 32-bit `int`. -/
def INT_MAX : Int := 2147483647

/-- C `isspace` in the "C" locale: space, `\t`, `\n`, `\v`, `\f`, `\r`. -/
def isspace (c : Char) : Bool :=
  c.toNat == 32 || (9 ≤ c.toNat && c.toNat ≤ 13)

/-- C `isdigit`: the characters `0` to `9`. -/
def isdigit (c : Char) : Bool :=
  48 ≤ c.toNat && c.toNat ≤ 57

/-- Value of a digit character. -/
def digitVal (c : Char) : Nat :=
  c.toNat - 48

/-- Modelled from the spec: the digit loop of `ACE_OS::atoi` (library code, not in
`src/`): accumulate the longest leading run of digits in base ten, starting from `acc`. -/
def atoi_digits : Nat → List Char → Nat
  | acc, [] => acc
  | acc, c :: cs => if isdigit c then atoi_digits (acc * 10 + digitVal c) cs else acc

/-- Modelled from the spec: the optional sign of `ACE_OS::atoi` followed by the digit
loop; the value is exact (unbounded). -/
def atoi_signed : List Char → Int
  | [] => 0
  | c :: cs =>
    if c = '-' then -((atoi_digits 0 cs : Nat) : Int)
    else if c = '+' then ((atoi_digits 0 cs : Nat) : Int)
    else ((atoi_digits 0 (c :: cs) : Nat) : Int)

/-- Smallest value of a 64-bit `long`. -/
def LONG_MIN : Int := -9223372036854775808

/-- Largest value of a 64-bit `long`. -/
def LONG_MAX : Int := 9223372036854775807

/-- The result of `strtol` for an exact value: a value outside the range of `long` is
replaced by the nearest bound. -/
def strtol_clamp (v : Int) : Int :=
  if v < LONG_MIN then LONG_MIN else if LONG_MAX < v then LONG_MAX else v

/-- The conversion `(int) v` of a `long`: the low 32 bits, read in two's complement. -/
def int_of_long (v : Int) : Int :=
  (v + 2147483648) % 4294967296 - 2147483648

/-- Modelled from the spec: `ACE_OS::atoi` (library code, not in `src/`), which is the C
library's `atoi`: skip leading white space, read an optional sign, then the longest
leading run of digits; `0` if there is none.  A value in the range of `int` is returned
as it is.  For a value outside that range C leaves the result undefined; the model takes
what the C library gives on an LP64 platform, `(int) strtol (s, 0, 10)`. -/
def atoi (s : List Char) : Int :=
  int_of_long (strtol_clamp (atoi_signed (s.dropWhile isspace)))

/-- The port `main` listens on (`src/main.cpp`, lines 156-162).  `argv` is the whole
argument vector, program name included, so `argc = argv.length`. -/
def main_PORT (argv : List (List Char)) : Int :=
  let PORT : Int := 50000
  if argv.length = 2 then
    let PORT : Int := atoi (argv.getD 1 [])
    if PORT ≤ 0 ∨ PORT ≥ 65535 then 50000 else PORT
  else PORT

/-- A well-formed decimal integer: an optional `-`, then one or more digits and nothing
else. -/
def wellFormedDecimal : List Char → Bool
  | [] => false
  | c :: cs =>
    if c = '-' then (!cs.isEmpty && cs.all isdigit)
    else (c :: cs).all isdigit

/-- The integer a list of digit characters denotes in base ten (most significant digit
first). -/
def decimalValue (ds : List Char) : Nat :=
  Nat.ofDigits 10 (ds.reverse.map digitVal)

/-- The text of a signed decimal integer: `-` for a negative one, then its digits. -/
def decimalText (neg : Bool) (ds : List Char) : List Char :=
  if neg then '-' :: ds else ds

/-- The integer a signed decimal text denotes. -/
def decimalInt (neg : Bool) (ds : List Char) : Int :=
  if neg then -((decimalValue ds : Nat) : Int) else ((decimalValue ds : Nat) : Int)

/-- The usual decimal text of an integer: its digits without leading zeros, after a `-`
when it is negative. -/
def intText (p : Int) : List Char :=
  (toString p).toList

/-- The text after an optional sign character. -/
def afterSign : List Char → List Char
  | [] => []
  | c :: cs => if c = '-' ∨ c = '+' then cs else c :: cs

/-- The run of digits `atoi` converts: what follows leading white space and an optional
sign, up to the first character that is not a digit. -/
def leadingDigits (s : List Char) : List Char :=
  (afterSign (s.dropWhile isspace)).takeWhile isdigit

/-! ## Transport results and the trace of calls -/

/-- A byte of socket data (`char`). -/
abbrev Byte := Nat

/-- An ACE I/O handle. -/
abbrev ACE_HANDLE := Int

/-- Interest masks used in `src/main.cpp`. -/
inductive Mask
  | READ_MASK
  | ACCEPT_MASK
  deriving DecidableEq

/-- What `stream.recv_n (buf, len, flags, &v, &bytes_transferred)` leaves behind: its
return value, the byte count it stored, the contents of `buf`, and `errno`. -/
structure RecvResult where
  status : Int
  bytes_transferred : Nat
  buf : List Byte
  errno : Int
  deriving DecidableEq

/-- What `acceptor.accept (stream)` leaves behind: its return value and the handle now
held by `stream`. -/
structure AcceptResult where
  status : Int
  stream : ACE_HANDLE
  deriving DecidableEq

/-- The connection handler (`class ClientSocket`): it owns one stream. -/
structure ClientSocket where
  stream : ACE_HANDLE
  deriving DecidableEq

/-- The listener handler (`class ServerSocket`): it refers to one acceptor. -/
structure ServerSocket where
  acceptor : ACE_HANDLE
  deriving DecidableEq

/-- A call into the transport or the reactor, with the result it gave.  Output to
`std::cout` is not recorded. -/
inductive Op
  | recv_n (h : ACE_HANDLE) (len : Nat) (r : RecvResult)
  | send_n (h : ACE_HANDLE) (payload : List Byte) (status : Int)
  | get_remote_addr (h : ACE_HANDLE)
  | close (h : ACE_HANDLE)
  | accept (h : ACE_HANDLE) (a : AcceptResult)
  | register_handler (c : ClientSocket) (mask : Mask)
  deriving DecidableEq

/-- The handle a call works on. -/
def Op.handle : Op → ACE_HANDLE
  | .recv_n h _ _ => h
  | .send_n h _ _ => h
  | .get_remote_addr h => h
  | .close h => h
  | .accept h _ => h
  | .register_handler c _ => c.stream

/-- Is the call a write? -/
def Op.isWrite : Op → Bool
  | .send_n _ _ _ => true
  | _ => false

/-- Is the call a close? -/
def Op.isClose : Op → Bool
  | .close _ => true
  | _ => false

/-- Is the call an accept? -/
def Op.isAccept : Op → Bool
  | .accept _ _ => true
  | _ => false

/-- Is the call a registration? -/
def Op.isRegister : Op → Bool
  | .register_handler _ _ => true
  | _ => false

/-- The payloads of the writes in a trace, in order. -/
def payloads : List Op → List (List Byte)
  | [] => []
  | .send_n _ p _ :: ops => p :: payloads ops
  | _ :: ops => payloads ops

/-- The bytes a read transferred: the first `bytes_transferred` bytes of `buf`. -/
def RecvResult.transferred (r : RecvResult) : List Byte :=
  r.buf.take r.bytes_transferred

/-! ## `ClientSocket` -/

/-- `ClientSocket::handle_input` (`src/main.cpp`, lines 52-100).  `r` is what `recv_n`
gave, `sendStatus` is what `send_n` returns if it is called, `ETIME` is the platform's
`errno` constant of that name.  The result is the return value and the calls made. -/
def ClientSocket.handle_input (ETIME : Int) (self : ClientSocket) (r : RecvResult)
    (sendStatus : Int) : Int × List Op :=
  let len : Nat := 256
  let ops : List Op := [Op.recv_n self.stream len r]
  let status : Int := r.status
  if status = 0 then
    (-1, ops)
  else if r.bytes_transferred = 0 ∧ status = -1 then
    if r.errno = ETIME then (0, ops) else (-1, ops)
  else
    let ops : List Op := ops ++ [Op.send_n self.stream (r.buf.take r.bytes_transferred) sendStatus]
    let status : Int := sendStatus
    if status ≤ 0 then (-1, ops) else (0, ops)

/-- `ClientSocket::handle_close` (`src/main.cpp`, lines 102-112): look up the peer
address, close the stream, delete the handler; returns 0. -/
def ClientSocket.handle_close (self : ClientSocket) : Int × List Op :=
  (0, [Op.get_remote_addr self.stream, Op.close self.stream])

/-! ## `ServerSocket` -/

/-- `ServerSocket::handle_input` (`src/main.cpp`, lines 136-143).  `a` is what `accept`
gave.  The `ClientSocket` constructor looks up the peer address of the stream.  The
return value of `accept` is not inspected. -/
def ServerSocket.handle_input (self : ServerSocket) (a : AcceptResult) : Int × List Op :=
  let stream : ACE_HANDLE := a.stream
  (0, [Op.accept self.acceptor a,
       Op.get_remote_addr stream,
       Op.register_handler (ClientSocket.mk stream) Mask.READ_MASK])

/-- `ServerSocket::handle_close` (`src/main.cpp`, lines 144-150): close the acceptor,
delete the handler; returns 0. -/
def ServerSocket.handle_close (self : ServerSocket) : Int × List Op :=
  (0, [Op.close self.acceptor])

/-! ## Connections over time -/

/-- The two states of a connection handler. -/
inductive ConnState
  | Open
  | Closing
  deriving DecidableEq

/-- Modelled from the spec: the reactor's reading of a callback's return value (ACE
library code, not in `src/`): a negative value deregisters the handler and calls its
`handle_close`, anything else leaves it registered. -/
def stateAfter (ret : Int) : ConnState :=
  if ret < 0 then ConnState.Closing else ConnState.Open

/-- Modelled from the spec: whether the reactor leaves a handler registered after a
callback that returned `ret` (ACE library code, not in `src/`). -/
def staysRegistered (ret : Int) : Bool :=
  !decide (ret < 0)

/-- The calls made by the listener over a sequence of readiness events, one `accept`
outcome each: each event runs `handle_input`; after the first negative return the reactor
calls `handle_close` and delivers nothing more. -/
def ServerSocket.run (self : ServerSocket) : List AcceptResult → List Op
  | [] => []
  | a :: rest =>
    let res := self.handle_input a
    if res.1 < 0 then res.2 ++ self.handle_close.2
    else res.2 ++ ServerSocket.run self rest

/-- One readiness event of a connection: what the read gives, and what the write gives if
the handler writes. -/
structure Round where
  recv : RecvResult
  sendStatus : Int
  deriving DecidableEq

/-- The calls made on one connection over a sequence of readiness events: each event runs
`handle_input`; after the first negative return the reactor calls `handle_close` and
delivers nothing more. -/
def run (ETIME : Int) (self : ClientSocket) : List Round → List Op
  | [] => []
  | rd :: rest =>
    let res := self.handle_input ETIME rd.recv rd.sendStatus
    if res.1 < 0 then res.2 ++ self.handle_close.2
    else res.2 ++ run ETIME self rest

/-- The readiness events that reach the handler: those up to and including the first one
on which `handle_input` returns a negative value. -/
def delivered (ETIME : Int) (self : ClientSocket) : List Round → List Round
  | [] => []
  | rd :: rest =>
    if (self.handle_input ETIME rd.recv rd.sendStatus).1 < 0 then [rd]
    else rd :: delivered ETIME self rest

/-- The bytes a write put on the wire: with a positive result `n`, the first `n` bytes of
the payload; with a result `≤ 0`, none that the caller can count on. -/
def Op.written : Op → List Byte
  | .send_n _ p status => p.take status.toNat
  | _ => []

/-- All bytes written back over a trace, in order. -/
def writtenBack (ops : List Op) : List Byte :=
  (ops.map Op.written).flatten

/-- All bytes the delivered reads transferred, in order. -/
def readIn (rounds : List Round) : List Byte :=
  (rounds.map (fun rd => rd.recv.transferred)).flatten

/-- What is known about one stream: the bytes read from it, the bytes handed to it for
writing, and whether its handler is open. -/
structure Conn where
  consumed : List Byte
  written : List Byte
  state : ConnState
  deriving DecidableEq

/-- All streams, by handle. -/
abbrev World := ACE_HANDLE → Conn

/-- Effect of one call on the streams. -/
def applyOp (w : World) : Op → World
  | .recv_n h _ r => Function.update w h { w h with consumed := (w h).consumed ++ r.transferred }
  | .send_n h p _ => Function.update w h { w h with written := (w h).written ++ p }
  | .close h => Function.update w h { w h with state := ConnState.Closing }
  | _ => w

/-- One readiness event of the handler `self` in a world of streams: run `handle_input`,
and `handle_close` after a negative return. -/
def dispatchOps (ETIME : Int) (self : ClientSocket) (r : RecvResult) (sendStatus : Int) :
    List Op :=
  let res := self.handle_input ETIME r sendStatus
  if res.1 < 0 then res.2 ++ self.handle_close.2 else res.2

/-- The streams after one readiness event of the handler `self`. -/
def dispatch (ETIME : Int) (w : World) (self : ClientSocket) (r : RecvResult)
    (sendStatus : Int) : World :=
  (dispatchOps ETIME self r sendStatus).foldl applyOp w

/-- A read buffer holding the given text, padded with zero bytes to 256. -/
def bufOf (s : String) : List Byte :=
  (s.toList.map Char.toNat) ++ List.replicate (256 - s.length) 0

/-- Two readiness events: `hello` arrives and is written in full, then the peer closes. -/
def helloThenEof : List Round :=
  [⟨⟨-1, 5, bufOf "hello", 62⟩, 5⟩, ⟨⟨0, 0, bufOf "", 0⟩, 0⟩]

/-- A world in which every stream is open and nothing has been read or written. -/
def freshWorld : World :=
  fun _ => ⟨[], [], ConnState.Open⟩

/-! ## Lemmas on `atoi` -/

theorem isdigit_not_space {c : Char} (h : isdigit c = true) : isspace c = false := by
  simp only [isdigit, isspace, Bool.and_eq_true, decide_eq_true_eq] at *
  have h1 : ¬ c.toNat ≤ 13 := by omega
  have h2 : c.toNat ≠ 32 := by omega
  simp [h1, h2]

theorem isdigit_ne_minus {c : Char} (h : isdigit c = true) : c ≠ '-' := by
  intro hc
  subst hc
  revert h
  decide

theorem isdigit_ne_plus {c : Char} (h : isdigit c = true) : c ≠ '+' := by
  intro hc
  subst hc
  revert h
  decide

theorem decimalValue_nil : decimalValue [] = 0 := by
  simp [decimalValue]

theorem decimalValue_cons (c : Char) (cs : List Char) :
    decimalValue (c :: cs) = digitVal c * 10 ^ cs.length + decimalValue cs := by
  simp [decimalValue, Nat.ofDigits_append, Nat.ofDigits_singleton]
  ring

theorem atoi_digits_all (ds : List Char) (h : ∀ c ∈ ds, isdigit c = true) (acc : Nat) :
    atoi_digits acc ds = acc * 10 ^ ds.length + decimalValue ds := by
  induction ds generalizing acc with
  | nil => simp [atoi_digits, decimalValue_nil]
  | cons c cs ih =>
    have hc : isdigit c = true := h c (List.mem_cons_self c cs)
    have hcs : ∀ d ∈ cs, isdigit d = true := fun d hd => h d (List.mem_cons_of_mem c hd)
    simp only [atoi_digits, hc, if_true, ih hcs, decimalValue_cons, List.length_cons]
    ring

theorem atoi_digits_takeWhile (s : List Char) (acc : Nat) :
    atoi_digits acc s = atoi_digits acc (s.takeWhile isdigit) := by
  induction s generalizing acc with
  | nil => rfl
  | cons c cs ih =>
    by_cases hc : isdigit c = true
    · simp only [atoi_digits, List.takeWhile, hc, if_true]
      exact ih _
    · simp only [Bool.not_eq_true] at hc
      simp [atoi_digits, List.takeWhile, hc]

theorem atoi_digits_eq (s : List Char) :
    atoi_digits 0 s = decimalValue (s.takeWhile isdigit) := by
  rw [atoi_digits_takeWhile, atoi_digits_all]
  · simp
  · intro c hc
    exact (List.mem_takeWhile_imp hc)

theorem main_PORT_two (prog s : List Char) :
    main_PORT [prog, s] =
      if 1 ≤ atoi s ∧ atoi s ≤ 65534 then atoi s else 50000 := by
  simp only [main_PORT, List.length_cons, List.length_nil, List.getD_cons_succ,
    List.getD_cons_zero]
  by_cases h : atoi s ≤ 0 ∨ atoi s ≥ 65535
  · have h2 : ¬ (1 ≤ atoi s ∧ atoi s ≤ 65534) := by omega
    simp [h, h2]
  · have h2 : 1 ≤ atoi s ∧ atoi s ≤ 65534 := by omega
    simp [h, h2]

theorem int_of_long_clamp (v : Int) (hlo : INT_MIN ≤ v) (hhi : v ≤ INT_MAX) :
    int_of_long (strtol_clamp v) = v := by
  unfold INT_MIN at hlo
  unfold INT_MAX at hhi
  unfold int_of_long strtol_clamp LONG_MIN LONG_MAX
  split_ifs <;> omega

theorem atoi_signed_eq (t : List Char) :
    atoi_signed t =
      if t.head? = some '-' then -((decimalValue ((afterSign t).takeWhile isdigit) : Nat) : Int)
      else ((decimalValue ((afterSign t).takeWhile isdigit) : Nat) : Int) := by
  cases t with
  | nil => simp [atoi_signed, afterSign, decimalValue_nil]
  | cons c cs =>
    by_cases h1 : c = '-'
    · simp [atoi_signed, afterSign, h1, atoi_digits_eq]
    · by_cases h2 : c = '+'
      · subst h2
        simp [atoi_signed, afterSign, atoi_digits_eq]
      · simp [atoi_signed, afterSign, h1, h2, atoi_digits_eq]

theorem atoi_no_digits (s : List Char) (h : leadingDigits s = []) : atoi s = 0 := by
  unfold leadingDigits at h
  simp [atoi, atoi_signed_eq, h, decimalValue_nil, strtol_clamp, int_of_long, LONG_MIN,
    LONG_MAX]

theorem atoi_decimalText (neg : Bool) (ds : List Char) (hne : ds ≠ [])
    (hd : ∀ c ∈ ds, isdigit c = true) :
    atoi (decimalText neg ds) = int_of_long (strtol_clamp (decimalInt neg ds)) := by
  have htw : ds.takeWhile isdigit = ds := by
    rw [List.takeWhile_eq_self_iff]
    exact hd
  cases ds with
  | nil => exact absurd rfl hne
  | cons d ds =>
    have hdig : isdigit d = true := hd d (List.mem_cons_self d ds)
    have hsp : isspace d = false := isdigit_not_space hdig
    have hm : d ≠ '-' := isdigit_ne_minus hdig
    have hp : d ≠ '+' := isdigit_ne_plus hdig
    cases neg with
    | true =>
      have hms : isspace '-' = false := by decide
      simp [atoi, decimalText, decimalInt, List.dropWhile, hms, atoi_signed_eq, afterSign, htw]
    | false =>
      simp [atoi, decimalText, decimalInt, List.dropWhile, hsp, atoi_signed_eq, afterSign,
        hm, hp, htw]

theorem atoi_digits_append (ds : List Char) (hd : ∀ d ∈ ds, isdigit d = true) (c : Char)
    (hc : isdigit c = false) (rest : List Char) (acc : Nat) :
    atoi_digits acc (ds ++ c :: rest) = atoi_digits acc ds := by
  induction ds generalizing acc with
  | nil => simp [atoi_digits, hc]
  | cons d ds ih =>
    have hdig : isdigit d = true := hd d (List.mem_cons_self d ds)
    have hds : ∀ x ∈ ds, isdigit x = true := fun x hx => hd x (List.mem_cons_of_mem d hx)
    simp only [List.cons_append, atoi_digits, hdig, if_true]
    exact ih hds _

theorem atoi_trailing (ds : List Char) (hne : ds ≠ []) (hd : ∀ d ∈ ds, isdigit d = true)
    (c : Char) (hc : isdigit c = false) (rest : List Char) :
    atoi (ds ++ c :: rest) = atoi ds := by
  cases ds with
  | nil => exact absurd rfl hne
  | cons d ds =>
    have hdig : isdigit d = true := hd d (List.mem_cons_self d ds)
    have hsp : isspace d = false := isdigit_not_space hdig
    have hm : d ≠ '-' := isdigit_ne_minus hdig
    have hp : d ≠ '+' := isdigit_ne_plus hdig
    have key := atoi_digits_append (d :: ds) hd c hc rest 0
    simp only [List.cons_append] at key
    simp [atoi, List.dropWhile, hsp, atoi_signed, hm, hp, key]

theorem digitChar_toNat (d : Nat) (h : d < 10) : (Nat.digitChar d).toNat = 48 + d := by
  interval_cases d <;> rfl

theorem toDigitsCore_decimal (fuel : Nat) : ∀ (n : Nat) (tl : List Char), n < fuel →
    ∃ ds : List Char, Nat.toDigitsCore 10 fuel n tl = ds ++ tl ∧ ds ≠ [] ∧
      (∀ c ∈ ds, isdigit c = true) ∧ decimalValue ds = n := by
  induction fuel with
  | zero => intro n tl h; omega
  | succ fuel ih =>
    intro n tl h
    have hd : n % 10 < 10 := Nat.mod_lt _ (by decide)
    have hc := digitChar_toNat (n % 10) hd
    have hdig0 : isdigit (Nat.digitChar (n % 10)) = true := by
      simp only [isdigit, Bool.and_eq_true, decide_eq_true_eq]
      omega
    unfold Nat.toDigitsCore
    simp only
    split_ifs with h0
    · refine ⟨[Nat.digitChar (n % 10)], rfl, by simp, ?_, ?_⟩
      · intro c hcm
        simp only [List.mem_singleton] at hcm
        subst hcm
        exact hdig0
      · simp [decimalValue, digitVal, hc]
        omega
    · have hlt : n / 10 < fuel := by omega
      obtain ⟨pre, hpre, hne, hdig, hval⟩ := ih (n / 10) (Nat.digitChar (n % 10) :: tl) hlt
      refine ⟨pre ++ [Nat.digitChar (n % 10)], by simp [hpre], by simp, ?_, ?_⟩
      · intro c hcm
        simp only [List.mem_append, List.mem_singleton] at hcm
        rcases hcm with hcm | hcm
        · exact hdig c hcm
        · subst hcm
          exact hdig0
      · unfold decimalValue at hval ⊢
        simp only [List.reverse_append, List.reverse_cons, List.reverse_nil, List.nil_append,
          List.singleton_append, List.map_cons, Nat.ofDigits_cons, digitVal, hc, hval]
        simp
        omega

theorem toDigits_decimal (n : Nat) :
    Nat.toDigits 10 n ≠ [] ∧ (∀ c ∈ Nat.toDigits 10 n, isdigit c = true) ∧
      decimalValue (Nat.toDigits 10 n) = n := by
  obtain ⟨ds, hds, hne, hdig, hval⟩ := toDigitsCore_decimal (n + 1) n [] (Nat.lt_succ_self n)
  have h : Nat.toDigits 10 n = ds := by
    unfold Nat.toDigits
    rw [hds, List.append_nil]
  rw [h]
  exact ⟨hne, hdig, hval⟩

theorem intText_decimal (p : Int) :
    ∃ (neg : Bool) (ds : List Char), intText p = decimalText neg ds ∧ ds ≠ [] ∧
      (∀ c ∈ ds, isdigit c = true) ∧ decimalInt neg ds = p := by
  cases p with
  | ofNat m =>
    obtain ⟨hne, hdig, hval⟩ := toDigits_decimal m
    exact ⟨false, Nat.toDigits 10 m, rfl, hne, hdig, by simp [decimalInt, hval]⟩
  | negSucc m =>
    obtain ⟨hne, hdig, hval⟩ := toDigits_decimal (m + 1)
    refine ⟨true, Nat.toDigits 10 (m + 1), ?_, hne, hdig, ?_⟩
    · show ("-" ++ toString (m + 1)).toList = _
      simp [String.toList, decimalText]
      rfl
    · simp only [decimalInt, hval, if_true]
      rfl

/-! ## Port selection (claims C1, C2) -/

/-- C1 as stated fails: `"4294975376"` is a decimal integer outside `1..65534`, yet
`main` selects 8080 for it and not 50000, because the value does not fit an `int`. -/
theorem main_PORT_overflow :
    ¬ ∀ (prog : List Char) (neg : Bool) (ds : List Char), ds ≠ [] →
      (∀ c ∈ ds, isdigit c = true) →
      main_PORT [prog, decimalText neg ds] =
        if 1 ≤ decimalInt neg ds ∧ decimalInt neg ds ≤ 65534 then decimalInt neg ds
        else 50000 := by
  intro h
  have h1 := h "echo".toList false "4294975376".toList (by decide) (by decide)
  revert h1
  decide

/-- C1, amended: with no argument the port is 50000; with exactly one argument that is a
decimal integer `p` in the range of `int` the port is `p` when `1 ≤ p ≤ 65534` and 50000
otherwise, both for the usual text of `p` and for every text made of an optional `-` and
one or more digits (leading zeros allowed); `"0"` and `"70000"` give 50000, `"8080"`
gives 8080. -/
theorem main_PORT_decimal :
    (∀ prog : List Char, main_PORT [prog] = 50000) ∧
    (∀ (prog : List Char) (p : Int), INT_MIN ≤ p → p ≤ INT_MAX →
      main_PORT [prog, intText p] = if 1 ≤ p ∧ p ≤ 65534 then p else 50000) ∧
    (∀ (prog : List Char) (neg : Bool) (ds : List Char), ds ≠ [] →
      (∀ c ∈ ds, isdigit c = true) →
      INT_MIN ≤ decimalInt neg ds → decimalInt neg ds ≤ INT_MAX →
      main_PORT [prog, decimalText neg ds] =
        if 1 ≤ decimalInt neg ds ∧ decimalInt neg ds ≤ 65534 then decimalInt neg ds
        else 50000) ∧
    (∀ prog : List Char, main_PORT [prog, "0".toList] = 50000) ∧
    (∀ prog : List Char, main_PORT [prog, "70000".toList] = 50000) ∧
    (∀ prog : List Char, main_PORT [prog, "8080".toList] = 8080) := by
  refine ⟨fun prog => ?_, fun prog p hlo hhi => ?_, fun prog neg ds hne hd hlo hhi => ?_,
    fun prog => ?_, fun prog => ?_, fun prog => ?_⟩
  · simp [main_PORT]
  · obtain ⟨neg, ds, htext, hne, hd, hval⟩ := intText_decimal p
    rw [htext, main_PORT_two, atoi_decimalText neg ds hne hd, hval,
      int_of_long_clamp p hlo hhi]
  · rw [main_PORT_two, atoi_decimalText neg ds hne hd,
      int_of_long_clamp (decimalInt neg ds) hlo hhi]
  · rw [main_PORT_two]; decide
  · rw [main_PORT_two]; decide
  · rw [main_PORT_two]; decide

/-- Witness for C1, amended: the integer 70000 is in the range of `int` and out of the
range of ports; the text `"-12"` is the integer -12, and `"0443"` is 443. -/
theorem main_PORT_decimal_witness :
    main_PORT ["echo".toList, intText 70000] =
      (if (1 : Int) ≤ 70000 ∧ (70000 : Int) ≤ 65534 then 70000 else 50000) ∧
    main_PORT ["echo".toList, decimalText true "12".toList] = 50000 ∧
    main_PORT ["echo".toList, decimalText false "0443".toList] = 443 := by
  refine ⟨main_PORT_decimal.2.1 "echo".toList 70000 (by decide) (by decide), ?_, ?_⟩
  · rw [main_PORT_decimal.2.2.1 "echo".toList true "12".toList (by decide) (by decide)
      (by decide) (by decide)]
    decide
  · rw [main_PORT_decimal.2.2.1 "echo".toList false "0443".toList (by decide) (by decide)
      (by decide) (by decide)]
    decide

/-- C2 as stated fails: `"8080x"` is not a well-formed decimal integer, yet `main` does
not select 50000 for it. -/
theorem malformed_not_default :
    ¬ ∀ prog s : List Char, wellFormedDecimal s = false → main_PORT [prog, s] = 50000 := by
  intro h
  have h1 := h "echo".toList "8080x".toList (by decide)
  revert h1
  decide

/-- C2, amended: for every single argument, `main` selects the value `atoi` gives when
that is in `1..65534` and 50000 otherwise.  An argument with no digit where `atoi`
expects the number (after white space and an optional sign) gives 50000, as `"abc"` and
`""` do; characters after a run of digits are ignored, so `"8080x"` gives 8080. -/
theorem main_PORT_atoi :
    (∀ prog s : List Char, main_PORT [prog, s] =
      if 1 ≤ atoi s ∧ atoi s ≤ 65534 then atoi s else 50000) ∧
    (∀ prog s : List Char, leadingDigits s = [] → main_PORT [prog, s] = 50000) ∧
    (∀ (prog ds : List Char) (c : Char) (rest : List Char), ds ≠ [] →
      (∀ d ∈ ds, isdigit d = true) → isdigit c = false →
      main_PORT [prog, ds ++ c :: rest] = main_PORT [prog, ds]) ∧
    (∀ prog : List Char, main_PORT [prog, "abc".toList] = 50000) ∧
    (∀ prog : List Char, main_PORT [prog, "".toList] = 50000) ∧
    (∀ prog : List Char, main_PORT [prog, "8080x".toList] = 8080) := by
  refine ⟨main_PORT_two, fun prog s h => ?_, fun prog ds c rest hne hd hc => ?_,
    fun prog => ?_, fun prog => ?_, fun prog => ?_⟩
  · rw [main_PORT_two, atoi_no_digits s h]; decide
  · rw [main_PORT_two, main_PORT_two, atoi_trailing ds hne hd c hc rest]
  · rw [main_PORT_two]; decide
  · rw [main_PORT_two]; decide
  · rw [main_PORT_two]; decide

/-- Witness for C2, amended: `" -x"` has no digit after its sign, and `"21;9"` is read
as `"21"`. -/
theorem main_PORT_atoi_witness :
    main_PORT ["echo".toList, " -x".toList] = 50000 ∧
    main_PORT ["echo".toList, "21".toList ++ ';' :: "9".toList] =
      main_PORT ["echo".toList, "21".toList] :=
  ⟨main_PORT_atoi.2.1 "echo".toList " -x".toList (by decide),
   main_PORT_atoi.2.2.1 "echo".toList "21".toList ';' "9".toList (by decide) (by decide)
     (by decide)⟩

/-! ## `ClientSocket::handle_input`, one call (claims C3-C6, C10) -/

theorem bufOf_length (s : String) (h : s.length ≤ 256) : (bufOf s).length = 256 := by
  have hl : s.toList.length = s.length := rfl
  simp only [bufOf, List.length_append, List.length_map, List.length_replicate, hl]
  omega

/-- C3 as stated fails: a read that ends with status 0 (the peer closed) after
transferring 3 bytes is answered with no write at all. -/
theorem echo_whatever_status_fails :
    ¬ ∀ (ETIME : Int) (self : ClientSocket) (r : RecvResult) (sendStatus : Int),
      0 < r.bytes_transferred →
      payloads (self.handle_input ETIME r sendStatus).2 = [r.buf.take r.bytes_transferred] := by
  intro h
  have h1 := h 62 (ClientSocket.mk 7) ⟨0, 3, bufOf "bye", 0⟩ 3 (by decide)
  simp [ClientSocket.handle_input, payloads] at h1

/-- C3, amended: for every read result with a status other than 0 and
`bytes_transferred > 0`, the handler makes the read and then exactly one write, whose
payload is the first `bytes_transferred` bytes of the buffer; it returns -1 if the write
result is `≤ 0` and 0 if it is `> 0`. -/
theorem handle_input_echo (ETIME : Int) (self : ClientSocket) (r : RecvResult)
    (sendStatus : Int) (hs : r.status ≠ 0) (hb : 0 < r.bytes_transferred) :
    (self.handle_input ETIME r sendStatus).2 =
      [Op.recv_n self.stream 256 r,
       Op.send_n self.stream (r.buf.take r.bytes_transferred) sendStatus] ∧
    payloads (self.handle_input ETIME r sendStatus).2 = [r.buf.take r.bytes_transferred] ∧
    (sendStatus ≤ 0 → (self.handle_input ETIME r sendStatus).1 = -1) ∧
    (0 < sendStatus → (self.handle_input ETIME r sendStatus).1 = 0) := by
  have hb0 : r.bytes_transferred ≠ 0 := by omega
  by_cases hw : sendStatus ≤ 0
  · have hw2 : ¬ 0 < sendStatus := by omega
    simp [ClientSocket.handle_input, hs, hb0, hw, hw2, payloads]
  · have hw2 : 0 < sendStatus := by omega
    simp [ClientSocket.handle_input, hs, hb0, hw, hw2, payloads]

/-- Witness for C3, amended: `hello` read with status -1 and written in full. -/
theorem handle_input_echo_witness :
    ((ClientSocket.mk 7).handle_input 62 ⟨-1, 5, bufOf "hello", 62⟩ 5).2 =
      [Op.recv_n 7 256 ⟨-1, 5, bufOf "hello", 62⟩,
       Op.send_n 7 ((bufOf "hello").take 5) 5] ∧
    ((ClientSocket.mk 7).handle_input 62 ⟨-1, 5, bufOf "hello", 62⟩ 5).1 = 0 :=
  have h := handle_input_echo 62 (ClientSocket.mk 7) ⟨-1, 5, bufOf "hello", 62⟩ 5
    (by decide) (by decide)
  ⟨h.1, h.2.2.2 (by decide)⟩

/-- C4: a read that completes in order (status 0) makes the handler return -1 without
any write, and the connection goes to Closing; this holds for every byte count, so in
particular for `bytes_transferred = 0`. -/
theorem handle_input_eof (ETIME : Int) (self : ClientSocket) (r : RecvResult)
    (sendStatus : Int) (hs : r.status = 0) :
    self.handle_input ETIME r sendStatus = (-1, [Op.recv_n self.stream 256 r]) ∧
    (∀ op ∈ (self.handle_input ETIME r sendStatus).2, op.isWrite = false) ∧
    stateAfter (self.handle_input ETIME r sendStatus).1 = ConnState.Closing := by
  have h0 : self.handle_input ETIME r sendStatus = (-1, [Op.recv_n self.stream 256 r]) := by
    simp [ClientSocket.handle_input, hs]
  rw [h0]
  refine ⟨rfl, ?_, by simp [stateAfter]⟩
  intro op hop
  simp only [List.mem_singleton] at hop
  subst hop
  rfl

/-- Witness for C4: end of file on stream 7. -/
theorem handle_input_eof_witness :
    (ClientSocket.mk 7).handle_input 62 ⟨0, 0, bufOf "", 0⟩ 0 =
      (-1, [Op.recv_n 7 256 ⟨0, 0, bufOf "", 0⟩]) :=
  (handle_input_eof 62 (ClientSocket.mk 7) ⟨0, 0, bufOf "", 0⟩ 0 rfl).1

/-- C5: a read whose bounded wait elapsed with zero bytes (status -1, `errno = ETIME`,
`bytes_transferred` 0) makes the handler return 0 with no write and no close; the
connection stays Open. -/
theorem handle_input_timeout (ETIME : Int) (self : ClientSocket) (r : RecvResult)
    (sendStatus : Int) (hs : r.status = -1) (he : r.errno = ETIME)
    (hb : r.bytes_transferred = 0) :
    self.handle_input ETIME r sendStatus = (0, [Op.recv_n self.stream 256 r]) ∧
    (∀ op ∈ (self.handle_input ETIME r sendStatus).2,
      op.isWrite = false ∧ op.isClose = false) ∧
    (∀ op ∈ dispatchOps ETIME self r sendStatus, op.isWrite = false ∧ op.isClose = false) ∧
    (∀ w : World, dispatch ETIME w self r sendStatus = w) ∧
    stateAfter (self.handle_input ETIME r sendStatus).1 = ConnState.Open := by
  have h0 : self.handle_input ETIME r sendStatus = (0, [Op.recv_n self.stream 256 r]) := by
    simp [ClientSocket.handle_input, hs, he, hb]
  have h1 : dispatchOps ETIME self r sendStatus = [Op.recv_n self.stream 256 r] := by
    simp [dispatchOps, h0]
  have h2 : ∀ w : World, dispatch ETIME w self r sendStatus = w := by
    intro w
    simp [dispatch, h1, applyOp, RecvResult.transferred, hb]
  rw [h0, h1]
  refine ⟨rfl, ?_, ?_, h2, by simp [stateAfter]⟩
  · intro op hop
    simp only [List.mem_singleton] at hop
    subst hop
    exact ⟨rfl, rfl⟩
  · intro op hop
    simp only [List.mem_singleton] at hop
    subst hop
    exact ⟨rfl, rfl⟩

/-- Witness for C5: a timed-out read on stream 7, with `ETIME = 62`. -/
theorem handle_input_timeout_witness :
    (ClientSocket.mk 7).handle_input 62 ⟨-1, 0, bufOf "", 62⟩ 0 =
      (0, [Op.recv_n 7 256 ⟨-1, 0, bufOf "", 62⟩]) :=
  (handle_input_timeout 62 (ClientSocket.mk 7) ⟨-1, 0, bufOf "", 62⟩ 0 rfl rfl rfl).1

/-- C6 as stated fails: a read with status -1 and an error code other than `ETIME` that
transferred 5 bytes is echoed, and after a successful write the handler returns 0. -/
theorem read_error_not_always_fatal :
    ¬ ∀ (ETIME : Int) (self : ClientSocket) (r : RecvResult) (sendStatus : Int),
      r.status = -1 → r.errno ≠ ETIME →
      (self.handle_input ETIME r sendStatus).1 = -1 := by
  intro h
  have h1 := h 62 (ClientSocket.mk 7) ⟨-1, 5, bufOf "hello", 104⟩ 5 (by decide) (by decide)
  simp [ClientSocket.handle_input] at h1

/-- C6, amended: a read with status -1, an error code other than `ETIME` and zero bytes
transferred makes the handler return -1 for every write outcome, without a write.  When
such a read transferred bytes, the handler echoes them and returns -1 exactly when the
write result is `≤ 0`. -/
theorem handle_input_read_error (ETIME : Int) (self : ClientSocket) (r : RecvResult)
    (sendStatus : Int) (hs : r.status = -1) (he : r.errno ≠ ETIME) :
    (r.bytes_transferred = 0 →
      self.handle_input ETIME r sendStatus = (-1, [Op.recv_n self.stream 256 r])) ∧
    (0 < r.bytes_transferred →
      ((self.handle_input ETIME r sendStatus).1 = -1 ↔ sendStatus ≤ 0) ∧
      payloads (self.handle_input ETIME r sendStatus).2 = [r.buf.take r.bytes_transferred]) := by
  constructor
  · intro hb
    simp [ClientSocket.handle_input, hs, he, hb]
  · intro hb
    have hb0 : r.bytes_transferred ≠ 0 := by omega
    by_cases hw : sendStatus ≤ 0
    · simp [ClientSocket.handle_input, hs, hb0, hw, payloads]
    · simp [ClientSocket.handle_input, hs, hb0, hw, payloads]

/-- Witness for C6, amended: error 104 with nothing read, on stream 7. -/
theorem handle_input_read_error_witness :
    (ClientSocket.mk 7).handle_input 62 ⟨-1, 0, bufOf "", 104⟩ 9 =
      (-1, [Op.recv_n 7 256 ⟨-1, 0, bufOf "", 104⟩]) :=
  (handle_input_read_error 62 (ClientSocket.mk 7) ⟨-1, 0, bufOf "", 104⟩ 9 rfl
    (by decide)).1 rfl

/-- C10: when the read obeys the contract of `recv_n` on the 256-byte buffer (status
-1, 0, or 256 with `bytes_transferred = 256`; `bytes_transferred ≤ 256`), every write
the handler makes has between 1 and 256 bytes; it never makes an empty write. -/
theorem handle_input_write_size (ETIME : Int) (self : ClientSocket) (r : RecvResult)
    (sendStatus : Int) (hbuf : r.buf.length = 256)
    (hst : r.status = -1 ∨ r.status = 0 ∨ (r.status = 256 ∧ r.bytes_transferred = 256))
    (hbt : r.bytes_transferred ≤ 256) :
    ∀ (h : ACE_HANDLE) (p : List Byte) (st : Int),
      Op.send_n h p st ∈ (self.handle_input ETIME r sendStatus).2 →
      1 ≤ p.length ∧ p.length ≤ 256 := by
  intro h p st hmem
  unfold ClientSocket.handle_input at hmem
  simp only at hmem
  split_ifs at hmem with h1 h2 h3 h4 <;>
    simp only [List.mem_singleton, List.mem_append, List.mem_cons, List.not_mem_nil,
      or_false, reduceCtorEq, false_or, Op.send_n.injEq] at hmem
  all_goals
    obtain ⟨-, hp, -⟩ := hmem
    subst hp
    simp only [List.length_take, hbuf]
    have hpos : 0 < r.bytes_transferred := by
      rcases hst with hm | hz | ⟨-, hf⟩
      · rcases Nat.eq_zero_or_pos r.bytes_transferred with hz | hpos
        · exact absurd ⟨hz, hm⟩ h2
        · exact hpos
      · exact absurd hz h1
      · omega
    omega

/-- Witness for C10: `hello` read with status -1 into a 256-byte buffer. -/
theorem handle_input_write_size_witness :
    Op.send_n 7 ((bufOf "hello").take 5) 5 ∈
      ((ClientSocket.mk 7).handle_input 62 ⟨-1, 5, bufOf "hello", 62⟩ 5).2 ∧
    1 ≤ ((bufOf "hello").take 5).length ∧ ((bufOf "hello").take 5).length ≤ 256 :=
  have hmem : Op.send_n 7 ((bufOf "hello").take 5) 5 ∈
      ((ClientSocket.mk 7).handle_input 62 ⟨-1, 5, bufOf "hello", 62⟩ 5).2 := by
    simp [ClientSocket.handle_input]
  ⟨hmem, handle_input_write_size 62 (ClientSocket.mk 7) ⟨-1, 5, bufOf "hello", 62⟩ 5
    (bufOf_length "hello" (by decide)) (Or.inl rfl) (by decide) 7 _ 5 hmem⟩

/-! ## Repeated calls on one connection (claim C7) -/

theorem writtenBack_append (a b : List Op) :
    writtenBack (a ++ b) = writtenBack a ++ writtenBack b := by
  simp [writtenBack]

theorem writtenBack_handle_close (self : ClientSocket) :
    writtenBack self.handle_close.2 = [] := by
  simp [writtenBack, ClientSocket.handle_close, Op.written]

theorem payloads_append (a b : List Op) : payloads (a ++ b) = payloads a ++ payloads b := by
  induction a with
  | nil => rfl
  | cons op ops ih => cases op <;> simp [payloads, ih]

theorem payloads_handle_close (self : ClientSocket) : payloads self.handle_close.2 = [] := by
  simp [payloads, ClientSocket.handle_close]

theorem readIn_cons (rd : Round) (rest : List Round) :
    readIn (rd :: rest) = rd.recv.transferred ++ readIn rest := by
  simp [readIn]

/-- One call: unless the read ended with status 0 after transferring bytes, the payloads
written are the bytes the read transferred. -/
theorem payloads_handle_input (ETIME : Int) (self : ClientSocket) (r : RecvResult)
    (sendStatus : Int) (heof : r.status = 0 → r.bytes_transferred = 0) :
    (payloads (self.handle_input ETIME r sendStatus).2).flatten = r.transferred := by
  unfold ClientSocket.handle_input
  simp only
  split_ifs with h1 h2 h3 h4
  · simp [payloads, RecvResult.transferred, heof h1]
  · simp [payloads, RecvResult.transferred, h2.1]
  · simp [payloads, RecvResult.transferred, h2.1]
  · simp [payloads, RecvResult.transferred]
  · simp [payloads, RecvResult.transferred]

/-- One call: unless the read ended with status 0 after transferring bytes, and when the
write (if any) returns the length of its payload, the bytes written back are the bytes
the read transferred. -/
theorem writtenBack_handle_input (ETIME : Int) (self : ClientSocket) (r : RecvResult)
    (sendStatus : Int) (heof : r.status = 0 → r.bytes_transferred = 0)
    (hfull : sendStatus = (r.transferred.length : Int)) :
    writtenBack (self.handle_input ETIME r sendStatus).2 = r.transferred := by
  have hlen : sendStatus.toNat = r.transferred.length := by
    rw [hfull]
    exact Int.toNat_ofNat _
  have htake : (r.buf.take r.bytes_transferred).take sendStatus.toNat =
      r.buf.take r.bytes_transferred := by
    rw [hlen]
    exact List.take_length r.transferred
  unfold ClientSocket.handle_input
  simp only
  split_ifs with h1 h2 h3 h4
  · simp [writtenBack, Op.written, RecvResult.transferred, heof h1]
  · simp [writtenBack, Op.written, RecvResult.transferred, h2.1]
  · simp [writtenBack, Op.written, RecvResult.transferred, h2.1]
  · simp only [writtenBack, List.map_append, List.map_cons, List.map_nil, Op.written,
      htake, RecvResult.transferred]
    simp
  · simp only [writtenBack, List.map_append, List.map_cons, List.map_nil, Op.written,
      htake, RecvResult.transferred]
    simp

/-- C7 as stated fails: a single read of at most 256 bytes that ends with status 0
after transferring `bye` closes the connection with nothing written back. -/
theorem chunked_echo_fails :
    ¬ ∀ (ETIME : Int) (self : ClientSocket) (rounds : List Round),
      (∀ rd ∈ rounds, rd.recv.buf.length = 256 ∧ rd.recv.bytes_transferred ≤ 256) →
      (∀ rd ∈ rounds, rd.sendStatus = (rd.recv.transferred.length : Int)) →
      (payloads (run ETIME self rounds)).flatten = readIn (delivered ETIME self rounds) := by
  intro h
  have h1 := h 62 (ClientSocket.mk 7) [⟨⟨0, 3, bufOf "bye", 0⟩, 3⟩]
    (by
      intro rd hrd
      simp only [List.mem_singleton] at hrd
      subst hrd
      exact ⟨bufOf_length "bye" (by decide), by decide⟩)
    (by
      intro rd hrd
      simp only [List.mem_singleton] at hrd
      subst hrd
      simp [RecvResult.transferred, bufOf])
  simp [run, delivered, ClientSocket.handle_input, ClientSocket.handle_close, payloads,
    readIn, RecvResult.transferred, bufOf] at h1

/-- C7, amended: over every finite sequence of read results delivered to one connection
(ending when the handler returns -1) in which no read ends with status 0 after
transferring bytes, the concatenation of the payloads written back equals the
concatenation of the bytes the reads transferred, in order; and if every write returns
the length of its payload, so does the concatenation of the bytes put on the wire. -/
theorem chunked_echo (ETIME : Int) (self : ClientSocket) (rounds : List Round)
    (heof : ∀ rd ∈ delivered ETIME self rounds,
      rd.recv.status = 0 → rd.recv.bytes_transferred = 0) :
    (payloads (run ETIME self rounds)).flatten = readIn (delivered ETIME self rounds) ∧
    ((∀ rd ∈ delivered ETIME self rounds,
        rd.sendStatus = (rd.recv.transferred.length : Int)) →
      writtenBack (run ETIME self rounds) = readIn (delivered ETIME self rounds)) := by
  induction rounds with
  | nil => simp [run, delivered, payloads, writtenBack, readIn]
  | cons rd rest ih =>
    by_cases hret : (self.handle_input ETIME rd.recv rd.sendStatus).1 < 0
    · have hd : delivered ETIME self (rd :: rest) = [rd] := by simp [delivered, hret]
      have hr : run ETIME self (rd :: rest) =
          (self.handle_input ETIME rd.recv rd.sendStatus).2 ++ self.handle_close.2 := by
        simp [run, hret]
      rw [hd] at heof ⊢
      rw [hr]
      have he := heof rd (List.mem_singleton_self rd)
      constructor
      · rw [payloads_append, payloads_handle_close, List.append_nil,
          payloads_handle_input ETIME self rd.recv rd.sendStatus he]
        simp [readIn]
      · intro hfull
        rw [writtenBack_append, writtenBack_handle_close, List.append_nil,
          writtenBack_handle_input ETIME self rd.recv rd.sendStatus he
            (hfull rd (List.mem_singleton_self rd))]
        simp [readIn]
    · have hd : delivered ETIME self (rd :: rest) = rd :: delivered ETIME self rest := by
        simp [delivered, hret]
      have hr : run ETIME self (rd :: rest) =
          (self.handle_input ETIME rd.recv rd.sendStatus).2 ++ run ETIME self rest := by
        simp [run, hret]
      rw [hd] at heof ⊢
      rw [hr]
      have he := heof rd (List.mem_cons_self rd _)
      have ih2 := ih (fun x hx => heof x (List.mem_cons_of_mem rd hx))
      constructor
      · rw [payloads_append, List.flatten_append,
          payloads_handle_input ETIME self rd.recv rd.sendStatus he, ih2.1, readIn_cons]
      · intro hfull
        rw [writtenBack_append,
          writtenBack_handle_input ETIME self rd.recv rd.sendStatus he
            (hfull rd (List.mem_cons_self rd _)),
          ih2.2 (fun x hx => hfull x (List.mem_cons_of_mem rd hx)), readIn_cons]

theorem delivered_helloThenEof :
    delivered 62 (ClientSocket.mk 7) helloThenEof = helloThenEof := by
  simp [delivered, helloThenEof, ClientSocket.handle_input]

/-- Witness for C7, amended: `hello` is echoed, then the peer closes. -/
theorem chunked_echo_witness :
    writtenBack (run 62 (ClientSocket.mk 7) helloThenEof) =
      readIn (delivered 62 (ClientSocket.mk 7) helloThenEof) :=
  (chunked_echo 62 (ClientSocket.mk 7) helloThenEof
    (by
      rw [delivered_helloThenEof]
      intro rd hrd
      simp only [helloThenEof, List.mem_cons, List.mem_singleton, List.not_mem_nil,
        or_false] at hrd
      rcases hrd with h | h <;> subst h <;> simp)).2
    (by
      rw [delivered_helloThenEof]
      intro rd hrd
      simp only [helloThenEof, List.mem_cons, List.mem_singleton, List.not_mem_nil,
        or_false] at hrd
      rcases hrd with h | h <;> subst h
      · show (5 : Int) = ((List.take 5 (bufOf "hello")).length : Int)
        rw [List.length_take, bufOf_length "hello" (by decide)]
        rfl
      · show (0 : Int) = ((List.take 0 (bufOf "")).length : Int)
        rfl)

/-! ## `ServerSocket::handle_input` (claim C8) -/

theorem server_run_cons (self : ServerSocket) (a : AcceptResult) (rest : List AcceptResult) :
    self.run (a :: rest) =
      Op.accept self.acceptor a :: Op.get_remote_addr a.stream ::
        Op.register_handler (ClientSocket.mk a.stream) Mask.READ_MASK :: self.run rest := by
  simp [ServerSocket.run, ServerSocket.handle_input]

/-- C8: for every outcome of `accept`, one call of `ServerSocket::handle_input` calls
`accept` exactly once, on its own acceptor, makes exactly one registration, of a new
`ClientSocket` over the accepted stream with `READ_MASK`, closes nothing, and returns 0,
so that the listener stays registered: over every sequence of readiness events, with
any mix of `accept` successes and failures, the listener accepts once and registers once
per event and is never closed. -/
theorem server_handle_input (self : ServerSocket) :
    (∀ a : AcceptResult,
      (self.handle_input a).1 = 0 ∧
      (self.handle_input a).2.filter Op.isAccept = [Op.accept self.acceptor a] ∧
      (self.handle_input a).2.filter Op.isRegister =
        [Op.register_handler (ClientSocket.mk a.stream) Mask.READ_MASK] ∧
      (self.handle_input a).2.filter Op.isClose = [] ∧
      staysRegistered (self.handle_input a).1 = true) ∧
    (∀ events : List AcceptResult,
      (self.run events).filter Op.isAccept = events.map (Op.accept self.acceptor) ∧
      (self.run events).filter Op.isRegister =
        events.map (fun a => Op.register_handler (ClientSocket.mk a.stream) Mask.READ_MASK) ∧
      (self.run events).filter Op.isClose = []) := by
  constructor
  · intro a
    simp [ServerSocket.handle_input, Op.isAccept, Op.isRegister, Op.isClose, staysRegistered]
  · intro events
    induction events with
    | nil => simp [ServerSocket.run]
    | cons a rest ih =>
      obtain ⟨h1, h2, h3⟩ := ih
      rw [server_run_cons]
      refine ⟨?_, ?_, ?_⟩
      · simp [List.filter, Op.isAccept]
        exact h1
      · simp [List.filter, Op.isRegister]
        exact h2
      · simp only [List.filter_cons, Op.isClose, Bool.false_eq_true, if_false]
        exact h3

/-! ## Isolation between connections (claim C9) -/

theorem applyOp_other (w : World) (op : Op) (h : ACE_HANDLE) (hne : h ≠ op.handle) :
    applyOp w op h = w h := by
  cases op <;> simp_all [applyOp, Op.handle, Function.update]

theorem foldl_applyOp_other (ops : List Op) (w : World) (h : ACE_HANDLE)
    (hne : ∀ op ∈ ops, h ≠ op.handle) : ops.foldl applyOp w h = w h := by
  induction ops generalizing w with
  | nil => rfl
  | cons op ops ih =>
    simp only [List.foldl_cons]
    rw [ih (applyOp w op) (fun o ho => hne o (List.mem_cons_of_mem op ho))]
    exact applyOp_other w op h (hne op (List.mem_cons_self op ops))

theorem handle_input_handle (ETIME : Int) (self : ClientSocket) (r : RecvResult)
    (sendStatus : Int) :
    ∀ op ∈ (self.handle_input ETIME r sendStatus).2, op.handle = self.stream := by
  intro op hop
  unfold ClientSocket.handle_input at hop
  simp only at hop
  split_ifs at hop <;>
    simp only [List.mem_append, List.mem_singleton, List.mem_cons, List.not_mem_nil,
      or_false] at hop
  all_goals first
    | (subst hop; rfl)
    | (rcases hop with h | h <;> subst h <;> rfl)

theorem handle_close_handle (self : ClientSocket) :
    ∀ op ∈ self.handle_close.2, op.handle = self.stream := by
  intro op hop
  simp only [ClientSocket.handle_close, List.mem_cons, List.mem_singleton, List.not_mem_nil,
    or_false] at hop
  rcases hop with h | h <;> subst h <;> rfl

theorem dispatchOps_handle (ETIME : Int) (self : ClientSocket) (r : RecvResult)
    (sendStatus : Int) :
    ∀ op ∈ dispatchOps ETIME self r sendStatus, op.handle = self.stream := by
  intro op hop
  unfold dispatchOps at hop
  simp only at hop
  split_ifs at hop
  · rcases List.mem_append.mp hop with h | h
    · exact handle_input_handle ETIME self r sendStatus op h
    · exact handle_close_handle self op h
  · exact handle_input_handle ETIME self r sendStatus op hop

/-- C9: one handler's readiness event, for every read and write outcome (peer EOF
included), makes calls on that handler's own stream only, and leaves the bytes read,
the bytes written and the Open/Closing state of every handler with a different stream
unchanged. -/
theorem dispatch_isolated (ETIME : Int) (w : World) (self other : ClientSocket)
    (r : RecvResult) (sendStatus : Int) (hne : other.stream ≠ self.stream) :
    (∀ op ∈ dispatchOps ETIME self r sendStatus, op.handle = self.stream) ∧
    dispatch ETIME w self r sendStatus other.stream = w other.stream := by
  refine ⟨dispatchOps_handle ETIME self r sendStatus, ?_⟩
  unfold dispatch
  apply foldl_applyOp_other
  intro op hop
  rw [dispatchOps_handle ETIME self r sendStatus op hop]
  exact hne

/-- Witness for C9: the handler of stream 7 reads `bye` at end of file and closes;
stream 8 is as it was. -/
theorem dispatch_isolated_witness :
    dispatch 62 freshWorld (ClientSocket.mk 7) ⟨0, 3, bufOf "bye", 0⟩ 3 8 = freshWorld 8 :=
  (dispatch_isolated 62 freshWorld (ClientSocket.mk 7) (ClientSocket.mk 8)
    ⟨0, 3, bufOf "bye", 0⟩ 3 (by decide)).2

end AceReactorEcho
